import Mathlib

/-!
Shallow embedding of the taupo agent framework (packages/ai, packages/server)
together with theorems checking the natural-language specification against it.

The embedding follows the TypeScript source:
  * JavaScript runtime values are modelled by `JsonValue`; plain objects are
    ordered association lists of fields.
  * Object spread `\x7b...a, ...b\x7d` is modelled by `jsSpread` (entries of `a`
    in order with values overridden by `b`, then the new entries of `b`).
  * The artifact merge reducer of packages/ai/src/agent/artifact.ts is
    `mergeWithPartialDefaults` / `artifactCreate` / `artifactUpdate`.
-/

namespace Taupo

/-- JavaScript runtime values as used by the artifact reducer and tool
contexts: null, booleans, numbers, strings, arrays and plain objects
(ordered field lists). -/
inductive JsonValue where
  | null
  | bool (b : Bool)
  | num (n : Int)
  | str (s : String)
  | arr (elems : List JsonValue)
  | obj (fields : List (String × JsonValue))

/-- Field lookup on a JavaScript object (first field with the given key). -/
def lookupField (fields : List (String × JsonValue)) (k : String) :
    Option JsonValue :=
  (fields.find? (fun kv => kv.1 == k)).map (fun kv => kv.2)

/-- Rest-destructuring `const \x7b k, ...rest \x7d = o`: all fields except `k`,
in their original order. -/
def removeField (fields : List (String × JsonValue)) (k : String) :
    List (String × JsonValue) :=
  fields.filter (fun kv => !(kv.1 == k))

/-- JavaScript object spread `\x7b ...a, ...b \x7d`: the entries of `a` in order,
with the value of any key that also occurs in `b` replaced by the value from
`b`, followed by the entries of `b` whose keys do not occur in `a`. -/
def jsSpread (a b : List (String × JsonValue)) : List (String × JsonValue) :=
  a.map (fun kv =>
    match b.find? (fun kv2 => kv2.1 == kv.1) with
    | some kv2 => (kv.1, kv2.2)
    | none => kv)
  ++ b.filter (fun kv2 => !(a.any (fun kv => kv.1 == kv2.1)))

/-- Artifact output schema: a validator (`validateTypes` succeeding or not)
plus the optional partial-defaults mechanism (`schema.partial().parse(\x7b\x7d)`,
present when the schema object exposes a `partial` function). -/
structure ArtifactSchema where
  validate : JsonValue → Bool
  partialDefaults : Option (List (String × JsonValue))

/-- mergeWithPartialDefaults of artifact.ts: when both `current` and
`updates` are non-null, non-array objects, spread the partial defaults,
then `current`, then `updates`; otherwise `updates` replaces `current`
wholesale. -/
def mergeWithPartialDefaults (schema : ArtifactSchema)
    (current updates : JsonValue) : JsonValue :=
  match current, updates with
  | .obj cur, .obj upd =>
    match schema.partialDefaults with
    | some defaults => .obj (jsSpread (jsSpread defaults cur) upd)
    | none => .obj (jsSpread cur upd)
  | _, _ => updates

/-- Failures of the artifact reducer: `create` without a writer in context,
or a value rejected by `validateTypes`. -/
inductive ArtifactError where
  | missingWriter
  | validationFailed
deriving Repr, DecidableEq

/-- State of one artifact instance: its id, the accumulated `currentData`,
and the list of `data-artifact` payloads written to the writer so far. -/
structure ArtifactRun where
  id : String
  current : JsonValue
  emitted : List JsonValue

/-- artifact(...).create(data, context): requires a writer in the context,
merges `data` over the schema partial defaults starting from the empty
object, validates, and emits the raw `data` (while `current` tracks the
merged value). -/
def artifactCreate (schema : ArtifactSchema) (id : String) (data : JsonValue)
    (hasWriter : Bool) : Except ArtifactError ArtifactRun :=
  if !hasWriter then .error .missingWriter
  else
    let currentData := mergeWithPartialDefaults schema (.obj []) data
    if !(schema.validate currentData) then .error .validationFailed
    else .ok ⟨id, currentData, [data]⟩

/-- update(partialData): `currentData` is reassigned to the merged value
before validation runs; on validation success the merged value is emitted,
on failure nothing is emitted but the state keeps the merged value. The
Bool reports whether the call succeeded. -/
def artifactUpdate (schema : ArtifactSchema) (st : ArtifactRun)
    (partialData : JsonValue) : ArtifactRun × Bool :=
  let merged := mergeWithPartialDefaults schema st.current partialData
  if schema.validate merged then
    (⟨st.id, merged, st.emitted ++ [merged]⟩, true)
  else
    (⟨st.id, merged, st.emitted⟩, false)

/-- Threading a list of updates through an artifact state. -/
def artifactRunUpdates (schema : ArtifactSchema) (st : ArtifactRun)
    (partials : List JsonValue) : ArtifactRun :=
  partials.foldl (fun s p => (artifactUpdate schema s p).1) st

/-- AgentCallParameters of agent.ts: an optional prompt, an optional message
list (message contents are opaque strings), optional caller options, an
optional per-call message-window override and an optional writer (modelled
by its presence). -/
structure CallParameters where
  prompt : Option String
  messages : Option (List String)
  options : Option JsonValue
  maxMessagesInContext : Option Nat
  hasWriter : Bool

/-- JavaScript `msgs.slice(-n)`: the last `n` elements, except that
`slice(-0)` is `slice(0)` and returns the whole array. -/
def jsSliceLast (msgs : List String) (n : Nat) : List String :=
  if n = 0 then msgs else msgs.drop (msgs.length - n)

/-- Agent.limitMessageContextLength: the per-call override wins over the
agent-level default via nullish coalescing; when messages are present and
non-empty and a cap is defined, they are replaced by `slice(-cap)`. -/
def limitMessageContextLength (agentMax : Option Nat)
    (options : CallParameters) : CallParameters :=
  let maxM :=
    match options.maxMessagesInContext with
    | some n => some n
    | none => agentMax
  match options.messages, maxM with
  | some msgs, some n =>
    if msgs.length ≠ 0 then { options with messages := some (jsSliceLast msgs n) }
    else options
  | _, _ => options

/-- One content item of a step or stream chunk from the model-invocation
collaborator: text, a tool call, or a tool result carrying the selected
agent id in its output. -/
inductive StepContent where
  | text (s : String)
  | toolCall (toolName : String)
  | toolResult (toolName : String) (agentId : String)
deriving Repr, DecidableEq

/-- GenerateTextResult as the router inspects it: the step trace (content
list per step) and the final text. -/
structure GenerateResult where
  steps : List (List StepContent)
  text : String
deriving Repr, DecidableEq

/-- StreamTextResult as the router consumes it: the fullStream chunk
sequence. The underlying AI SDK handle tees its base stream on each
access, so the same complete sequence is observed by every consumer. -/
structure StreamResult where
  events : List StepContent
deriving Repr, DecidableEq

/-- Agent.generate: window the call parameters, then dispatch to the
model-invocation collaborator. The second component records the parameter
values actually sent to the collaborator (exactly one call, no
validation). -/
def leafGenerate (collab : CallParameters → GenerateResult)
    (agentMax : Option Nat) (options : CallParameters) :
    GenerateResult × List CallParameters :=
  let callOptions := limitMessageContextLength agentMax options
  (collab callOptions, [callOptions])

/-- Agent.stream: identical windowing on the stream path. -/
def leafStream (collab : CallParameters → StreamResult)
    (agentMax : Option Nat) (options : CallParameters) :
    StreamResult × List CallParameters :=
  let callOptions := limitMessageContextLength agentMax options
  (collab callOptions, [callOptions])

/-- JavaScript Map.set: replace the value of an existing key in place,
otherwise append the binding. -/
def mapSet {α : Type} : List (String × α) → String → α → List (String × α)
  | [], k, v => [(k, v)]
  | (k0, v0) :: m, k, v =>
    if k0 == k then (k, v) :: m else (k0, v0) :: mapSet m k v

/-- JavaScript Map.get. -/
def mapGet {α : Type} (m : List (String × α)) (k : String) : Option α :=
  (m.find? (fun kv => kv.1 == k)).map (fun kv => kv.2)

/-- Keys of a JavaScript Map, in insertion order. -/
def mapKeys {α : Type} (m : List (String × α)) : List String :=
  m.map (fun kv => kv.1)

/-- Values of a JavaScript Map, in insertion order. -/
def mapValues {α : Type} (m : List (String × α)) : List α :=
  m.map (fun kv => kv.2)

/-- RouterAgent constructor: `settings.subAgents.reduce((map, agent) =>
map.set(agent.info.name, agent), new Map())`. A later agent with the same
name silently replaces an earlier one. -/
def buildSubAgentsMap {α : Type} (name : α → String) (subs : List α) :
    List (String × α) :=
  subs.foldl (fun m a => mapSet m (name a) a) []

/-- A sub-agent as the router uses it: identity plus its generate and
stream operations. -/
structure SubAgent where
  name : String
  capabilities : String
  generate : CallParameters → GenerateResult
  stream : CallParameters → StreamResult

/-- A RouterAgent: its own identity, message window, sub-agent list, and
the model-invocation collaborator behind its self-run as a leaf agent. -/
structure RouterAgentModel where
  name : String
  maxMessagesInContext : Option Nat
  subAgents : List SubAgent
  selfCollabGenerate : CallParameters → GenerateResult
  selfCollabStream : CallParameters → StreamResult

/-- The agentId carried by a content item when it is a selectAgent tool
result, and nothing otherwise. -/
def selectAgentResult : StepContent → Option String
  | .toolResult toolName agentId =>
    if toolName == "selectAgent" then some agentId else none
  | _ => none

/-- RouterAgent.generate decision scan: the FIRST selectAgent tool result
in the flattened step trace (`steps.flatMap(...).find(...)`). -/
def scanSelectAgentGenerate (result : GenerateResult) : Option String :=
  (result.steps.flatMap id).findSome? selectAgentResult

/-- RouterAgent.stream decision scan: the whole fullStream is consumed and
each selectAgent tool result overwrites `agentId`, so the LAST one wins. -/
def scanSelectAgentStream (events : List StepContent) : Option String :=
  events.foldl
    (fun acc c =>
      match selectAgentResult c with
      | some id => some id
      | none => acc)
    none

/-- Outcome of RouterAgent.generate: the returned result plus the ids
reported through the non-fatal unknown-agent console log. -/
structure RouterGenerateOutcome where
  result : GenerateResult
  loggedUnknownAgentIds : List String

/-- RouterAgent.generate: run itself as a leaf agent, scan the step trace
for a selectAgent result; a truthy (non-empty) agentId is looked up in the
sub-agent map; on a hit the sub-agent generate is re-invoked with the
ORIGINAL options, on an unknown id the anomaly is logged and the router
result is returned, otherwise the router result is returned. -/
def routerGenerate (r : RouterAgentModel) (options : CallParameters) :
    RouterGenerateOutcome :=
  let routerResult :=
    (leafGenerate r.selfCollabGenerate r.maxMessagesInContext options).1
  match scanSelectAgentGenerate routerResult with
  | none => ⟨routerResult, []⟩
  | some agentId =>
    if agentId == "" then ⟨routerResult, []⟩
    else
      match mapGet (buildSubAgentsMap SubAgent.name r.subAgents) agentId with
      | some agent => ⟨agent.generate options, []⟩
      | none => ⟨routerResult, [agentId]⟩

/-- Events written to the caller-supplied writer by the router. -/
inductive WriterEvent where
  | status (text : String)
  | handoff (agentName : String)
deriving Repr, DecidableEq

/-- Outcome of RouterAgent.stream: the stream handle handed back to the
caller, the writer events issued by the router itself, and the ids
reported through the non-fatal unknown-agent console log. -/
structure RouterStreamOutcome where
  result : StreamResult
  writerEvents : List WriterEvent
  loggedUnknownAgentIds : List String

/-- RouterAgent.stream: write the determining status (when a writer is
present), run itself as a leaf agent in streaming mode, consume the full
self stream to detect the last selectAgent result, then either hand back
its own stream handle, or write the handoff and executing events and
re-invoke the chosen sub-agent stream with the ORIGINAL options. -/
def routerStream (r : RouterAgentModel) (options : CallParameters) :
    RouterStreamOutcome :=
  let preEvents :=
    if options.hasWriter
    then [WriterEvent.status "Determining sub-agent to route to..."]
    else []
  let routerStreamResult :=
    (leafStream r.selfCollabStream r.maxMessagesInContext options).1
  match scanSelectAgentStream routerStreamResult.events with
  | none => ⟨routerStreamResult, preEvents, []⟩
  | some agentId =>
    if agentId == "" then ⟨routerStreamResult, preEvents, []⟩
    else
      match mapGet (buildSubAgentsMap SubAgent.name r.subAgents) agentId with
      | none => ⟨routerStreamResult, preEvents, [agentId]⟩
      | some agent =>
        ⟨agent.stream options,
         preEvents ++
           (if options.hasWriter
            then [WriterEvent.handoff agent.name,
                  WriterEvent.status "Executing sub-agent..."]
            else []),
         []⟩

/-- Error payload of the server error handlers (status plus message). -/
structure ErrorResponse where
  status : Nat
  error : String
deriving Repr, DecidableEq

/-- JavaScript truthiness of `body.prompt` (absent or the empty string is
falsy). -/
def promptTruthy : Option String → Bool
  | none => false
  | some s => !(s == "")

/-- JavaScript truthiness of `body.messages` (any array, even empty, is
truthy). -/
def messagesTruthy : Option (List String) → Bool
  | none => false
  | some _ => true

/-- agentGenerateHandler of routes.ts: reject a body with neither prompt
nor messages with the 400 invalid-request-body response BEFORE the agent
runs; otherwise run Agent.generate on the body. The collaborator call
list of the successful branch is passed through. -/
def agentGenerateHandler (collab : CallParameters → GenerateResult)
    (agentMax : Option Nat) (body : CallParameters) :
    Except ErrorResponse (GenerateResult × List CallParameters) :=
  if !(promptTruthy body.prompt) && !(messagesTruthy body.messages) then
    .error ⟨400, "Invalid request body"⟩
  else
    .ok (leafGenerate collab agentMax body)

/-- The reserved hidden-channel key merged into experimental_context by the
Agent prepareCall wrapper. -/
def writerField : String := "_writer"

/-- Agent prepareCall wrapper: the effective tool-call context is the
prepared experimental_context spread together with the hidden `_writer`
property holding the call writer (modelled as an opaque value). -/
def wrapContext (ctx : List (String × JsonValue)) (w : JsonValue) :
    List (String × JsonValue) :=
  jsSpread ctx [(writerField, w)]

/-- tool() execution boundary of tool/tool.ts: rest-destructure `_writer`
out of experimental_context and hand the tool author the remaining context
plus the writer as a separate explicit parameter. -/
def toolExecBoundary (execCtx : List (String × JsonValue)) :
    List (String × JsonValue) × Option JsonValue :=
  (removeField execCtx writerField, lookupField execCtx writerField)

/-- Static agent-graph data for the introspection tree: a leaf agent with
its toolset, or a router with its sub-agent list. -/
inductive AgentT where
  | leaf (name capabilities : String) (model : Option String)
      (tools : List String)
  | router (name capabilities : String) (model : Option String)
      (subAgents : List AgentT)

/-- Display name of an agent node. -/
def AgentT.name : AgentT → String
  | .leaf n _ _ _ => n
  | .router n _ _ _ => n

/-- AgentInfoNode of agent-router.ts: type tag, identity fields, the
optional tool-name list and the optional sub-agent nodes. -/
inductive AgentInfoNode where
  | node (type : String) (name : String) (capabilities : String)
      (model : Option String) (tools : Option (List String))
      (subAgents : Option (List AgentInfoNode))

/-- Tools component of an AgentInfoNode. -/
def AgentInfoNode.toolsOf : AgentInfoNode → Option (List String)
  | .node _ _ _ _ t _ => t

/-- Sub-agent membership in the values of mapSet. -/
def mem_mapValues_mapSet {α : Type} (m : List (String × α)) (k : String)
    (v : α) : ∀ x ∈ mapValues (mapSet m k v), x ∈ mapValues m ∨ x = v := by
  induction m with
  | nil => simp [mapSet, mapValues]
  | cons kv m ih =>
    intro x hx
    by_cases h : kv.1 == k
    · simp [mapSet, h, mapValues] at hx
      rcases hx with h1 | h2
      · exact Or.inr h1
      · exact Or.inl (by simp [mapValues]; exact Or.inr h2)
    · simp [mapSet, h, mapValues] at hx
      rcases hx with h1 | h2
      · exact Or.inl (by simp [mapValues, h1])
      · rcases ih x (by simpa [mapValues] using h2) with h3 | h4
        · exact Or.inl (by simp [mapValues] at h3 ⊢; exact Or.inr h3)
        · exact Or.inr h4

/-- Every value of the sub-agent map built by the RouterAgent constructor
is one of the constructor arguments. -/
def mem_of_mem_buildSubAgentsMap {α : Type} (name : α → String)
    (subs : List α) :
    ∀ x ∈ mapValues (buildSubAgentsMap name subs), x ∈ subs := by
  suffices h : ∀ (l : List α) (m : List (String × α)),
      ∀ x ∈ mapValues (l.foldl (fun m a => mapSet m (name a) a) m),
        x ∈ mapValues m ∨ x ∈ l by
    intro x hx
    rcases h subs [] x hx with h1 | h2
    · simp [mapValues] at h1
    · exact h2
  intro l
  induction l with
  | nil => intro m x hx; exact Or.inl hx
  | cons a l ih =>
    intro m x hx
    rcases ih (mapSet m (name a) a) x hx with h1 | h2
    · rcases mem_mapValues_mapSet m (name a) a x h1 with h3 | h4
      · exact Or.inl h3
      · exact Or.inr (by simp [h4])
    · exact Or.inr (by simp [h2])

/-- getAgentTree: a leaf agent describes itself as a plain agent node
WITHOUT a tools list (Agent.getAgentTree spreads only `this.info`); a
router walks the live values of its sub-agent map, recursing into nested
routers and attaching the current tool names to its leaf children. -/
def getAgentTree : AgentT → AgentInfoNode
  | .leaf n c m _tools => .node "agent" n c m none none
  | .router n c m subs =>
    .node "router" n c m none
      (some ((mapValues (buildSubAgentsMap AgentT.name subs)).attach.map
        (fun x =>
          match h : x.1 with
          | .router n2 c2 m2 subs2 => getAgentTree (.router n2 c2 m2 subs2)
          | .leaf n2 c2 m2 tools2 => .node "agent" n2 c2 m2 (some tools2) none)))
termination_by a => sizeOf a
decreasing_by
  rename_i x h
  have hmem := mem_of_mem_buildSubAgentsMap AgentT.name _ x.1 x.2
  have hlt := List.sizeOf_lt_of_mem hmem
  rw [h] at hlt
  simp only [AgentT.router.sizeOf_spec] at hlt ⊢
  omega

/-- Child mapping used by RouterAgent.getAgentTree on each live sub-agent
map value: recurse into routers, attach tool names to leaves. -/
def routerChildNode (a : AgentT) : AgentInfoNode :=
  match a with
  | .router n2 c2 m2 subs2 => getAgentTree (.router n2 c2 m2 subs2)
  | .leaf n2 c2 m2 tools2 => .node "agent" n2 c2 m2 (some tools2) none

/-- A schema whose validator accepts everything (a permissive zod object
schema without a partial-defaults mechanism). -/
def schemaAlwaysValid : ArtifactSchema := ⟨fun _ => true, none⟩

/-- A schema whose validator accepts only null, used to exercise failed
re-validation. -/
def schemaOnlyNull : ArtifactSchema :=
  ⟨fun v => match v with | .null => true | _ => false, none⟩

/-- A concrete prompt-only call. -/
def exampleCallParams : CallParameters := ⟨some "hi", none, none, none, false⟩

/-- A collaborator returning a fixed generate result. -/
def collabGenOk : CallParameters → GenerateResult := fun _ => ⟨[], "OK"⟩

/-- A concrete invoicing sub-agent. -/
def subInvoices : SubAgent :=
  ⟨"Invoices", "handles invoices",
   fun _ => ⟨[], "INVOICES"⟩, fun _ => ⟨[.text "INVOICES"]⟩⟩

/-- A concrete support sub-agent. -/
def subSupport : SubAgent :=
  ⟨"Support", "handles support",
   fun _ => ⟨[], "SUPPORT"⟩, fun _ => ⟨[.text "SUPPORT"]⟩⟩

/-- A sub-agent whose display name is the empty string. -/
def subEmptyName : SubAgent :=
  ⟨"", "empty-named agent",
   fun _ => ⟨[], "SUB"⟩, fun _ => ⟨[.text "SUB"]⟩⟩

/-- A router whose self-run selects the Invoices sub-agent. -/
def routerSelectsInvoices : RouterAgentModel :=
  ⟨"R", none, [subInvoices, subSupport],
   fun _ => ⟨[[.toolResult "selectAgent" "Invoices"]], "ROUTERTEXT"⟩,
   fun _ => ⟨[.toolResult "selectAgent" "Invoices"]⟩⟩

/-- A router whose self-run selects the empty-string agent id, which the
sub-agent map resolves but the truthiness guard rejects. -/
def routerSelectsEmpty : RouterAgentModel :=
  ⟨"R", none, [subEmptyName],
   fun _ => ⟨[[.toolResult "selectAgent" ""]], "ROUTERTEXT"⟩,
   fun _ => ⟨[.toolResult "selectAgent" ""]⟩⟩

/-- A router whose self-run names an id that matches no sub-agent. -/
def routerSelectsUnknown : RouterAgentModel :=
  ⟨"R", none, [subInvoices],
   fun _ => ⟨[[.toolResult "selectAgent" "Nobody"]], "ROUTERTEXT"⟩,
   fun _ => ⟨[.toolResult "selectAgent" "Nobody"]⟩⟩

/-- A router whose self-run makes no tool call and answers directly. -/
def routerNoSelection : RouterAgentModel :=
  ⟨"R", none, [subInvoices],
   fun _ => ⟨[[.text "direct answer"]], "direct answer"⟩,
   fun _ => ⟨[.text "direct answer"]⟩⟩

/-- Unfolding equation for getAgentTree on a router. -/
theorem getAgentTree_router (n c : String) (m : Option String)
    (subs : List AgentT) :
    getAgentTree (.router n c m subs) =
      .node "router" n c m none
        (some ((mapValues (buildSubAgentsMap AgentT.name subs)).map
          routerChildNode)) := by
  rw [getAgentTree]
  congr 2
  have hfun :
      (fun (x : {a // a ∈ mapValues (buildSubAgentsMap AgentT.name subs)}) =>
        match h : x.1 with
        | .router n2 c2 m2 subs2 => getAgentTree (.router n2 c2 m2 subs2)
        | .leaf n2 c2 m2 tools2 =>
          AgentInfoNode.node "agent" n2 c2 m2 (some tools2) none) =
      (fun x => routerChildNode x.val) := by
    funext x
    rcases hx : x.1 with _ | _ <;> simp [routerChildNode, hx]
  rw [hfun, List.attach_map_val]

/-- The override step of jsSpread keeps the key of each entry of `a`. -/
theorem fst_spread_override (b : List (String × JsonValue))
    (kv : String × JsonValue) :
    (match b.find? (fun (kv2 : String × JsonValue) => kv2.1 == kv.1) with
     | some kv2 => (kv.1, kv2.2)
     | none => kv).1 = kv.1 := by
  cases b.find? (fun (kv2 : String × JsonValue) => kv2.1 == kv.1) <;> rfl

/-- Searching the overridden entries of `a` is searching `a`. -/
theorem find?_map_spread (a b : List (String × JsonValue)) (k : String) :
    ((a.map (fun kv =>
        match b.find? (fun (kv2 : String × JsonValue) => kv2.1 == kv.1) with
        | some kv2 => (kv.1, kv2.2)
        | none => kv)).find? (fun kv => kv.1 == k)) =
      (a.find? (fun kv => kv.1 == k)).map (fun kv =>
        match b.find? (fun (kv2 : String × JsonValue) => kv2.1 == kv.1) with
        | some kv2 => (kv.1, kv2.2)
        | none => kv) := by
  induction a with
  | nil => rfl
  | cons kv a ih =>
    simp only [List.map_cons, List.find?_cons]
    rw [fst_spread_override]
    by_cases h : kv.1 = k
    · simp [h]
    · have hb : (kv.1 == k) = false := by simp [h]
      simp [hb, ih]

/-- When `k` does not occur in `a`, searching the appended part of jsSpread
for `k` is searching `b`. -/
theorem find?_filter_spread (a b : List (String × JsonValue)) (k : String)
    (ha : ∀ kv ∈ a, ¬ kv.1 = k) :
    ((b.filter (fun kv2 => !(a.any (fun kv => kv.1 == kv2.1)))).find?
        (fun kv => kv.1 == k)) =
      b.find? (fun kv => kv.1 == k) := by
  induction b with
  | nil => rfl
  | cons kv2 b ih =>
    by_cases h2 : kv2.1 = k
    · have hany : (a.any (fun kv => kv.1 == kv2.1)) = false := by
        simp only [List.any_eq_false]
        intro kv hkv
        simp [h2]
        exact ha kv hkv
      rw [List.filter_cons, hany]
      simp [h2]
    · cases hany : a.any (fun kv => kv.1 == kv2.1)
      · simp only [List.filter_cons, hany, Bool.not_false, if_pos]
        rw [List.find?_cons_of_neg _ (by simp [h2]),
          List.find?_cons_of_neg _ (by simp [h2])]
        exact ih
      · simp only [List.filter_cons, hany, Bool.not_true, if_neg
          (by simp : ¬ (false = true))]
        rw [ih, List.find?_cons_of_neg _ (by simp [h2])]

/-- Field lookup on a JavaScript spread: the value from `b` when `b` has
the key, the value from `a` otherwise. -/
theorem lookupField_jsSpread (a b : List (String × JsonValue)) (k : String) :
    lookupField (jsSpread a b) k =
      (lookupField b k).or (lookupField a k) := by
  unfold jsSpread lookupField
  rw [List.find?_append, find?_map_spread]
  cases h : a.find? (fun kv => kv.1 == k) with
  | none =>
    have ha : ∀ kv ∈ a, ¬ kv.1 = k := by
      intro kv hkv
      have := List.find?_eq_none.mp h kv hkv
      simpa using this
    rw [find?_filter_spread a b k ha]
    cases hb : b.find? (fun kv => kv.1 == k) <;> simp [Option.or]
  | some kv =>
    have hk1 : kv.1 = k := by
      have := List.find?_some h
      simpa using this
    simp only [Option.map_some']
    rw [hk1]
    cases hb : b.find? (fun (kv2 : String × JsonValue) => kv2.1 == k) <;>
      simp [Option.or, hb]

/-- Map.get after Map.set: the new binding wins for its key, nothing else
changes. -/
theorem mapGet_mapSet {α : Type} (m : List (String × α)) (k k2 : String)
    (v : α) :
    mapGet (mapSet m k v) k2 = if k = k2 then some v else mapGet m k2 := by
  induction m with
  | nil => by_cases h : k = k2 <;> simp [mapSet, mapGet, h]
  | cons kv m ih =>
    by_cases h0 : kv.1 = k
    · rw [mapSet, if_pos (by simp [h0])]
      by_cases h : k = k2
      · simp [mapGet, h]
      · have hne : ¬ kv.1 = k2 := by rw [h0]; exact h
        simp [mapGet, List.find?_cons, h, hne]
    · rw [mapSet, if_neg (by simp [h0])]
      by_cases h1 : kv.1 = k2
      · have hne : ¬ k = k2 := by
          intro hc
          exact h0 (by rw [h1, hc])
        simp [mapGet, List.find?_cons, h1, hne]
      · have hb : (kv.1 == k2) = false := by simp [h1]
        simp only [mapGet, List.find?_cons, hb]
        exact ih

/-- Map.get on the RouterAgent sub-agent map: the LAST agent in the
constructor list with the given name wins. -/
theorem mapGet_buildSubAgentsMap {α : Type} (f : α → String) (l : List α)
    (k : String) :
    mapGet (buildSubAgentsMap f l) k =
      l.reverse.find? (fun a => f a == k) := by
  suffices h : ∀ (m : List (String × α)),
      mapGet (l.foldl (fun m a => mapSet m (f a) a) m) k =
        (l.reverse.find? (fun a => f a == k)).or (mapGet m k) by
    have h0 := h []
    have hnil : mapGet ([] : List (String × α)) k = none := rfl
    rw [buildSubAgentsMap, h0, hnil]
    cases l.reverse.find? (fun a => f a == k) <;> simp [Option.or]
  induction l with
  | nil =>
    intro m
    simp only [List.foldl_nil, List.reverse_nil, List.find?_nil]
    cases mapGet m k <;> simp [Option.or]
  | cons a l ih =>
    intro m
    simp only [List.foldl_cons, List.reverse_cons, List.find?_append]
    rw [ih (mapSet m (f a) a), mapGet_mapSet]
    by_cases h : f a = k
    · cases hl : l.reverse.find? (fun a => f a == k) <;>
        simp [Option.or, List.find?_cons, h, hl]
    · have hb : (f a == k) = false := by simp [h]
      cases hl : l.reverse.find? (fun a => f a == k) <;>
        simp [Option.or, List.find?_cons, h, hb, hl]

/-- The stream decision scan reads the whole fullStream: a selectAgent
result arriving as the very last chunk still determines the decision. -/
theorem scanSelectAgentStream_last (evs : List StepContent) (id : String) :
    scanSelectAgentStream (evs ++ [StepContent.toolResult "selectAgent" id]) =
      some id := by
  simp [scanSelectAgentStream, List.foldl_append, selectAgentResult]

/-- Stripping the hidden field from the wrapped context removes exactly
the engine-written writer binding. -/
theorem removeField_wrapContext (ctx : List (String × JsonValue))
    (w : JsonValue) :
    removeField (wrapContext ctx w) writerField = removeField ctx writerField := by
  unfold wrapContext jsSpread removeField
  rw [List.filter_append]
  have h2 : (([(writerField, w)].filter
      (fun kv2 => !(ctx.any (fun kv => kv.1 == kv2.1)))).filter
        (fun kv => !(kv.1 == writerField))) = [] := by
    cases hany : ctx.any (fun kv => kv.1 == writerField) <;>
      simp [List.filter_cons, hany]
  have h1 : ∀ (c : List (String × JsonValue)),
      ((c.map (fun kv =>
        match [(writerField, w)].find?
            (fun (kv2 : String × JsonValue) => kv2.1 == kv.1) with
        | some kv2 => (kv.1, kv2.2)
        | none => kv)).filter (fun kv => !(kv.1 == writerField))) =
        c.filter (fun kv => !(kv.1 == writerField)) := by
    intro c
    induction c with
    | nil => rfl
    | cons kv c ih =>
      by_cases hk : kv.1 = writerField
      · have hfind : ([(writerField, w)].find?
            (fun (kv2 : String × JsonValue) => kv2.1 == kv.1)) =
            some (writerField, w) := by
          simp [List.find?_cons, hk]
        simp only [List.map_cons, hfind, List.filter_cons]
        rw [if_neg (by simp [hk]), if_neg (by simp [hk])]
        exact ih
      · have hbe : (writerField == kv.1) = false := by
          rw [beq_eq_false_iff_ne]
          exact fun hc => hk hc.symm
        have hfind : ([(writerField, w)].find?
            (fun (kv2 : String × JsonValue) => kv2.1 == kv.1)) = none := by
          simp [List.find?_cons, hbe]
        simp only [List.map_cons, hfind, List.filter_cons]
        rw [if_pos (by simp [hk]), if_pos (by simp [hk]), ih]
  rw [h2, List.append_nil, h1]

/-- The hidden field of the wrapped context holds exactly the writer that
the engine injected. -/
theorem lookupField_wrapContext (ctx : List (String × JsonValue))
    (w : JsonValue) :
    lookupField (wrapContext ctx w) writerField = some w := by
  unfold wrapContext
  rw [lookupField_jsSpread]
  have h1 : lookupField [(writerField, w)] writerField = some w := by
    simp [lookupField, List.find?_cons]
  rw [h1]
  rfl

/-- Removing a key that does not occur leaves the context unchanged. -/
theorem removeField_eq_self (ctx : List (String × JsonValue)) (k : String)
    (h : ∀ kv ∈ ctx, ¬ kv.1 = k) : removeField ctx k = ctx := by
  unfold removeField
  rw [List.filter_eq_self]
  intro kv hkv
  simp [h kv hkv]

/-- C1, counterexample: the claim says update deep-merges records, so that
create of a record with field b mapping to a record with field c, followed
by update of b mapping to a record with field d, emits b mapping to a
record holding BOTH c and d. The source merge is a single-level spread:
the run emits b mapping to the record holding only d, which differs from
the deep-merged state the claim demands. -/
theorem artifact_deep_merge_counterexample :
    ((artifactCreate schemaAlwaysValid "art"
        (.obj [("a", .num 1), ("b", .obj [("c", .num 1)])]) true).map
      (fun st => (artifactUpdate schemaAlwaysValid st
        (.obj [("b", .obj [("d", .num 2)])])).1.emitted)) =
      .ok [.obj [("a", .num 1), ("b", .obj [("c", .num 1)])],
           .obj [("a", .num 1), ("b", .obj [("d", .num 2)])]] ∧
    ¬ ((JsonValue.obj [("a", .num 1), ("b", .obj [("d", .num 2)])]) =
       (JsonValue.obj [("a", .num 1),
         ("b", .obj [("c", .num 1), ("d", .num 2)])])) := by
  constructor
  · rfl
  · intro h
    simp at h

/-- C1, amended: update(partial) merges partial onto current key-by-key at
the TOP level only when both are non-null, non-array records (per key the
value from partial wins, nested values are replaced, not recursively
merged); otherwise partial replaces current wholesale. In particular
create of a1-b(c1) then update of b(d2) emits a1-b(d2); update of b as the
array 1,2 followed by update of b as the array 3 replaces wholesale,
yielding a1-b(3). -/
theorem artifact_update_shallow_merge :
    (∀ (schema : ArtifactSchema) (cur upd : List (String × JsonValue))
        (k : String),
      schema.partialDefaults = none →
        mergeWithPartialDefaults schema (.obj cur) (.obj upd) =
          .obj (jsSpread cur upd) ∧
        lookupField (jsSpread cur upd) k =
          (lookupField upd k).or (lookupField cur k)) ∧
    (∀ (schema : ArtifactSchema) (cur upd : JsonValue),
      (∀ fields, cur ≠ .obj fields) →
        mergeWithPartialDefaults schema cur upd = upd) ∧
    (∀ (schema : ArtifactSchema) (cur upd : JsonValue),
      (∀ fields, upd ≠ .obj fields) →
        mergeWithPartialDefaults schema cur upd = upd) ∧
    ((artifactCreate schemaAlwaysValid "art"
        (.obj [("a", .num 1), ("b", .obj [("c", .num 1)])]) true).map
      (fun st => (artifactRunUpdates schemaAlwaysValid st
        [.obj [("b", .obj [("d", .num 2)])],
         .obj [("b", .arr [.num 1, .num 2])],
         .obj [("b", .arr [.num 3])]]).emitted)) =
      .ok [.obj [("a", .num 1), ("b", .obj [("c", .num 1)])],
           .obj [("a", .num 1), ("b", .obj [("d", .num 2)])],
           .obj [("a", .num 1), ("b", .arr [.num 1, .num 2])],
           .obj [("a", .num 1), ("b", .arr [.num 3])]] := by
  refine ⟨?_, ?_, ?_, ?_⟩
  · intro schema cur upd k hd
    exact ⟨by simp [mergeWithPartialDefaults, hd],
      lookupField_jsSpread cur upd k⟩
  · intro schema cur upd h
    cases cur with
    | obj fields => exact absurd rfl (h fields)
    | null => cases upd <;> rfl
    | bool b => cases upd <;> rfl
    | num n => cases upd <;> rfl
    | str s => cases upd <;> rfl
    | arr elems => cases upd <;> rfl
  · intro schema cur upd h
    cases upd with
    | obj fields => exact absurd rfl (h fields)
    | null => cases cur <;> rfl
    | bool b => cases cur <;> rfl
    | num n => cases cur <;> rfl
    | str s => cases cur <;> rfl
    | arr elems => cases cur <;> rfl
  · rfl

/-- C1, witness: the shallow-merge rule evaluated at a one-field record. -/
theorem artifact_update_shallow_merge_witness :
    mergeWithPartialDefaults schemaAlwaysValid (.obj [("x", .num 1)])
        (.obj [("x", .num 2)]) = .obj (jsSpread [("x", .num 1)] [("x", .num 2)]) ∧
    lookupField (jsSpread [("x", .num 1)] [("x", .num 2)]) "x" =
      (lookupField [("x", .num 2)] "x").or (lookupField [("x", .num 1)] "x") :=
  artifact_update_shallow_merge.1 schemaAlwaysValid
    [("x", .num 1)] [("x", .num 2)] "x" rfl

/-- C9: when update(partial) fails schema re-validation, the failed call
emits nothing, but the internal accumulated state has already been
replaced by the merged rejected value before validation, so the next
update merges onto that rejected state rather than onto the last
successfully validated and emitted state. -/
theorem artifact_failed_update_keeps_merged_state :
    ∀ (schema : ArtifactSchema) (st : ArtifactRun) (p p2 : JsonValue),
      schema.validate (mergeWithPartialDefaults schema st.current p) = false →
      (artifactUpdate schema st p).2 = false ∧
      (artifactUpdate schema st p).1.emitted = st.emitted ∧
      (artifactUpdate schema st p).1.current =
        mergeWithPartialDefaults schema st.current p ∧
      artifactRunUpdates schema st [p, p2] =
        (artifactUpdate schema
          ⟨st.id, mergeWithPartialDefaults schema st.current p, st.emitted⟩
          p2).1 := by
  intro schema st p p2 h
  refine ⟨?_, ?_, ?_, ?_⟩
  · simp [artifactUpdate, h]
  · simp [artifactUpdate, h]
  · simp [artifactUpdate, h]
  · simp [artifactRunUpdates, artifactUpdate, h]

/-- C9, witness: a schema accepting only null rejects the merged record
and the rejected value stays as the accumulated state. -/
theorem artifact_failed_update_keeps_merged_state_witness :
    (artifactUpdate schemaOnlyNull ⟨"art", .null, [.null]⟩ (.obj [])).2 =
      false :=
  (artifact_failed_update_keeps_merged_state schemaOnlyNull
    ⟨"art", .null, [.null]⟩ (.obj []) (.num 1) rfl).1

/-- C2, counterexample: a sub-agent may be registered under the empty
string as its name. The router self-run trace then contains a selectAgent
result whose agentId resolves in the sub-agent map, yet the truthiness
guard on agentId makes the router skip delegation and return its own
result instead of the sub-agent result, contradicting the claim at this
input. -/
theorem router_empty_id_counterexample :
    scanSelectAgentGenerate
      (leafGenerate routerSelectsEmpty.selfCollabGenerate
        routerSelectsEmpty.maxMessagesInContext exampleCallParams).1 =
      some "" ∧
    mapGet (buildSubAgentsMap SubAgent.name routerSelectsEmpty.subAgents) "" =
      some subEmptyName ∧
    (routerGenerate routerSelectsEmpty exampleCallParams).result.text =
      "ROUTERTEXT" ∧
    (subEmptyName.generate exampleCallParams).text = "SUB" ∧
    ¬ ((routerGenerate routerSelectsEmpty exampleCallParams).result =
        subEmptyName.generate exampleCallParams) := by
  refine ⟨rfl, rfl, rfl, rfl, ?_⟩
  intro h
  exact absurd (congrArg GenerateResult.text h) (by decide)

/-- C2, amended: whenever the self-run trace contains a selectAgent tool
result whose agentId is NON-EMPTY and resolves to a known sub-agent, the
router re-invokes that sub-agent (generate resp. stream) with the original
CallParameters value unchanged and returns the sub-agent result in place
of its own. -/
theorem router_delegates_original_params :
    ∀ (r : RouterAgentModel) (options : CallParameters) (id : String)
      (sub : SubAgent),
      id ≠ "" →
      (scanSelectAgentGenerate
          (leafGenerate r.selfCollabGenerate r.maxMessagesInContext
            options).1 = some id →
        mapGet (buildSubAgentsMap SubAgent.name r.subAgents) id = some sub →
        routerGenerate r options = ⟨sub.generate options, []⟩) ∧
      (scanSelectAgentStream
          (leafStream r.selfCollabStream r.maxMessagesInContext
            options).1.events = some id →
        mapGet (buildSubAgentsMap SubAgent.name r.subAgents) id = some sub →
        (routerStream r options).result = sub.stream options) := by
  intro r options id sub hid
  have hbe : (id == "") = false := by
    rw [beq_eq_false_iff_ne]
    exact hid
  constructor
  · intro h1 h2
    simp [routerGenerate, h1, h2, hbe]
  · intro h1 h2
    simp [routerStream, h1, h2, hbe]

/-- C2, witness: the routing decision for Invoices delegates both paths
with the original parameters. -/
theorem router_delegates_original_params_witness :
    routerGenerate routerSelectsInvoices exampleCallParams =
      ⟨subInvoices.generate exampleCallParams, []⟩ ∧
    (routerStream routerSelectsInvoices exampleCallParams).result =
      subInvoices.stream exampleCallParams := by
  have h := router_delegates_original_params routerSelectsInvoices
    exampleCallParams "Invoices" subInvoices (by simp)
  exact ⟨h.1 rfl rfl, h.2 rfl rfl⟩

/-- C3: when the self-run trace contains no selectAgent result, or names
an id that matches no sub-agent, the router returns its own direct result
unchanged and raises no error (the model is a total function); a non-empty
unknown id is only reported through the non-fatal console log. This holds
for any sub-agent list, including non-empty ones. -/
theorem router_fallback_no_error :
    ∀ (r : RouterAgentModel) (options : CallParameters),
      (scanSelectAgentGenerate
          (leafGenerate r.selfCollabGenerate r.maxMessagesInContext
            options).1 = none →
        routerGenerate r options =
          ⟨(leafGenerate r.selfCollabGenerate r.maxMessagesInContext
            options).1, []⟩) ∧
      (∀ id, id ≠ "" →
        scanSelectAgentGenerate
          (leafGenerate r.selfCollabGenerate r.maxMessagesInContext
            options).1 = some id →
        mapGet (buildSubAgentsMap SubAgent.name r.subAgents) id = none →
        routerGenerate r options =
          ⟨(leafGenerate r.selfCollabGenerate r.maxMessagesInContext
            options).1, [id]⟩) ∧
      (∀ id, scanSelectAgentStream
          (leafStream r.selfCollabStream r.maxMessagesInContext
            options).1.events = some id →
        mapGet (buildSubAgentsMap SubAgent.name r.subAgents) id = none →
        (routerStream r options).result =
          (leafStream r.selfCollabStream r.maxMessagesInContext
            options).1) := by
  intro r options
  refine ⟨?_, ?_, ?_⟩
  · intro h1
    simp [routerGenerate, h1]
  · intro id hid h1 h2
    have hbe : (id == "") = false := by
      rw [beq_eq_false_iff_ne]
      exact hid
    simp [routerGenerate, h1, h2, hbe]
  · intro id h1 h2
    by_cases hid : id = ""
    · subst hid
      simp [routerStream, h1]
    · have hbe : (id == "") = false := by
        rw [beq_eq_false_iff_ne]
        exact hid
      simp [routerStream, h1, h2, hbe]

/-- C3, witness: a no-selection run and an unknown-id run both fall back
to the router result even though a matching sub-agent exists. -/
theorem router_fallback_no_error_witness :
    routerGenerate routerNoSelection exampleCallParams =
      ⟨(leafGenerate routerNoSelection.selfCollabGenerate
        routerNoSelection.maxMessagesInContext exampleCallParams).1, []⟩ ∧
    routerGenerate routerSelectsUnknown exampleCallParams =
      ⟨(leafGenerate routerSelectsUnknown.selfCollabGenerate
        routerSelectsUnknown.maxMessagesInContext exampleCallParams).1,
       ["Nobody"]⟩ := by
  constructor
  · exact (router_fallback_no_error routerNoSelection
      exampleCallParams).1 rfl
  · exact (router_fallback_no_error routerSelectsUnknown
      exampleCallParams).2.1 "Nobody" (by simp) rfl rfl

/-- C7: when no sub-agent resolves, RouterAgent.stream hands back its own
stream handle carrying the COMPLETE self-run event sequence (the AI SDK
handle tees its base stream, so internal consumption for decision
detection loses nothing), and the decision is computed from the fully
drained self stream: a selectAgent result in the very last chunk still
determines it, so no delegation starts before the self stream ends. -/
theorem router_stream_preserved_and_drained :
    ∀ (r : RouterAgentModel) (options : CallParameters),
      (scanSelectAgentStream
          (leafStream r.selfCollabStream r.maxMessagesInContext
            options).1.events = none →
        (routerStream r options).result =
          (leafStream r.selfCollabStream r.maxMessagesInContext
            options).1) ∧
      (∀ id, scanSelectAgentStream
          (leafStream r.selfCollabStream r.maxMessagesInContext
            options).1.events = some id →
        mapGet (buildSubAgentsMap SubAgent.name r.subAgents) id = none →
        (routerStream r options).result =
          (leafStream r.selfCollabStream r.maxMessagesInContext
            options).1) ∧
      (∀ (evs : List StepContent) (id : String),
        scanSelectAgentStream
          (evs ++ [StepContent.toolResult "selectAgent" id]) = some id) := by
  intro r options
  refine ⟨?_, ?_, ?_⟩
  · intro h1
    simp [routerStream, h1]
  · intro id h1 h2
    by_cases hid : id = ""
    · subst hid
      simp [routerStream, h1]
    · have hbe : (id == "") = false := by
        rw [beq_eq_false_iff_ne]
        exact hid
      simp [routerStream, h1, h2, hbe]
  · intro evs id
    exact scanSelectAgentStream_last evs id

/-- C7, witness: a text-only self-run stream is returned whole, and a
trailing selectAgent chunk decides the scan. -/
theorem router_stream_preserved_and_drained_witness :
    (routerStream routerNoSelection exampleCallParams).result =
      (leafStream routerNoSelection.selfCollabStream
        routerNoSelection.maxMessagesInContext exampleCallParams).1 ∧
    scanSelectAgentStream
      [StepContent.text "pre-decision text", StepContent.toolResult "selectAgent"
        "Invoices"] = some "Invoices" := by
  constructor
  · exact (router_stream_preserved_and_drained routerNoSelection
      exampleCallParams).1 rfl
  · exact (router_stream_preserved_and_drained routerNoSelection
      exampleCallParams).2.2 [StepContent.text "pre-decision text"] "Invoices"

/-- C4, counterexample: a call with BOTH prompt and messages set raises no
InvalidCallError anywhere in the repository code: Agent.generate dispatches
it to the model-invocation collaborator (the invocation list is non-empty)
and the HTTP handler passes it through as a success, contradicting the
claim that such calls fail before any collaborator call. -/
theorem generate_no_invalid_call_error_counterexample :
    leafGenerate collabGenOk none
        ⟨some "hi", some ["m1"], none, none, false⟩ =
      (⟨[], "OK"⟩, [⟨some "hi", some ["m1"], none, none, false⟩]) ∧
    agentGenerateHandler collabGenOk none
        ⟨some "hi", some ["m1"], none, none, false⟩ =
      .ok (⟨[], "OK"⟩, [⟨some "hi", some ["m1"], none, none, false⟩]) := by
  exact ⟨rfl, rfl⟩

/-- C4, amended: the engine defines no InvalidCallError. Agent.generate
performs no prompt/messages validation and always dispatches exactly one
call to the collaborator with the windowed parameters; only the HTTP
generate handler rejects a body whose prompt and messages are BOTH
falsy, with a 400 invalid-request-body error issued before the agent
runs, while a body with both fields set is dispatched normally. -/
theorem generate_validation_location :
    (∀ (collab : CallParameters → GenerateResult) (agentMax : Option Nat)
        (p : CallParameters),
      leafGenerate collab agentMax p =
        (collab (limitMessageContextLength agentMax p),
         [limitMessageContextLength agentMax p])) ∧
    (∀ (collab : CallParameters → StreamResult) (agentMax : Option Nat)
        (p : CallParameters),
      leafStream collab agentMax p =
        (collab (limitMessageContextLength agentMax p),
         [limitMessageContextLength agentMax p])) ∧
    (∀ (collab : CallParameters → GenerateResult) (agentMax : Option Nat)
        (body : CallParameters),
      promptTruthy body.prompt = false → messagesTruthy body.messages = false →
        agentGenerateHandler collab agentMax body =
          .error ⟨400, "Invalid request body"⟩) ∧
    (∀ (collab : CallParameters → GenerateResult) (agentMax : Option Nat)
        (body : CallParameters),
      promptTruthy body.prompt = true ∨ messagesTruthy body.messages = true →
        agentGenerateHandler collab agentMax body =
          .ok (leafGenerate collab agentMax body)) := by
  refine ⟨fun collab agentMax p => rfl, fun collab agentMax p => rfl, ?_, ?_⟩
  · intro collab agentMax body h1 h2
    simp [agentGenerateHandler, h1, h2]
  · intro collab agentMax body h
    rcases h with h | h <;> simp [agentGenerateHandler, h]

/-- C4, witness: a body with neither field is rejected with 400 before
the agent runs, and a prompt-only body is dispatched. -/
theorem generate_validation_location_witness :
    agentGenerateHandler collabGenOk none ⟨none, none, none, none, false⟩ =
      .error ⟨400, "Invalid request body"⟩ ∧
    agentGenerateHandler collabGenOk none exampleCallParams =
      .ok (leafGenerate collabGenOk none exampleCallParams) := by
  constructor
  · exact generate_validation_location.2.2.1 collabGenOk none
      ⟨none, none, none, none, false⟩ rfl rfl
  · exact generate_validation_location.2.2.2 collabGenOk none
      exampleCallParams (Or.inl rfl)

/-- C5, counterexample: with a per-call cap of 0 (which the claim
quantifies over via ANY N_call) and a non-empty message list, the claim
demands that exactly the last 0 messages be forwarded; the source computes
slice(-0), which is slice(0), so the full list is forwarded to the
collaborator unchanged. The agent-level cap of 2 is also ignored. -/
theorem window_cap_zero_counterexample :
    (limitMessageContextLength (some 2)
      ⟨none, some ["m1"], none, some 0, false⟩).messages = some ["m1"] ∧
    (leafGenerate collabGenOk (some 2)
      ⟨none, some ["m1"], none, some 0, false⟩).2 =
      [⟨none, some ["m1"], none, some 0, false⟩] ∧
    ¬ (some ["m1"] = some ([] : List String)) := by
  refine ⟨rfl, rfl, ?_⟩
  intro h
  simp at h

/-- C5, amended: for an effective cap N of at least 1 (the per-call
override taking precedence over the agent-level default) and a message
list longer than N, exactly the last N messages are forwarded, and the
generate and stream paths window identically; absent both caps the list
passes through unmodified; a per-call cap of 0 disables slicing. -/
theorem message_windowing :
    (∀ (agentMax : Option Nat) (options : CallParameters)
        (msgs : List String) (n : Nat),
      options.messages = some msgs →
      (match options.maxMessagesInContext with
       | some c => some c
       | none => agentMax) = some n →
      1 ≤ n → n < msgs.length →
      (limitMessageContextLength agentMax options).messages =
        some (msgs.drop (msgs.length - n)) ∧
      (msgs.drop (msgs.length - n)).length = n ∧
      (msgs.drop (msgs.length - n)) <:+ msgs) ∧
    (∀ (agentMax nc : Option Nat) (options : CallParameters),
      options.maxMessagesInContext = nc → nc ≠ none →
      limitMessageContextLength agentMax options =
        limitMessageContextLength nc options) ∧
    (∀ (collabG : CallParameters → GenerateResult)
        (collabS : CallParameters → StreamResult)
        (agentMax : Option Nat) (options : CallParameters),
      (leafGenerate collabG agentMax options).2 =
        (leafStream collabS agentMax options).2) ∧
    (∀ (options : CallParameters),
      options.maxMessagesInContext = none →
      limitMessageContextLength none options = options) := by
  refine ⟨?_, ?_, ?_, ?_⟩
  · intro agentMax options msgs n hm hmax h1 h2
    have hlen : msgs.length ≠ 0 := by omega
    have hn : n ≠ 0 := by omega
    refine ⟨?_, ?_, ?_⟩
    · simp only [limitMessageContextLength, hm, hmax, jsSliceLast,
        if_neg hn, if_pos hlen]
    · rw [List.length_drop]
      omega
    · exact List.drop_suffix _ _
  · intro agentMax nc options hm hnc
    cases nc with
    | none => exact absurd rfl hnc
    | some c => simp [limitMessageContextLength, hm]
  · intro collabG collabS agentMax options
    rfl
  · intro options hm
    cases hmsg : options.messages <;>
      simp [limitMessageContextLength, hm, hmsg]

/-- C5, witness: with a per-call cap of 2 overriding an agent cap of 7 on
a three-message history, exactly the last two messages are forwarded. -/
theorem message_windowing_witness :
    (limitMessageContextLength (some 7)
      ⟨none, some ["m1", "m2", "m3"], none, some 2, false⟩).messages =
      some (["m1", "m2", "m3"].drop (["m1", "m2", "m3"].length - 2)) ∧
    (["m1", "m2", "m3"].drop (["m1", "m2", "m3"].length - 2)).length = 2 ∧
    (["m1", "m2", "m3"].drop (["m1", "m2", "m3"].length - 2)) <:+
      ["m1", "m2", "m3"] :=
  message_windowing.1 (some 7)
    ⟨none, some ["m1", "m2", "m3"], none, some 2, false⟩
    ["m1", "m2", "m3"] 2 rfl rfl (by omega) (by simp)

/-- C6: the tool execution boundary strips exactly the hidden writer
binding out of the wrapped experimental context and surfaces the injected
writer as the separate explicit parameter; when the caller context does
not use the reserved hidden key, the tool sees precisely the
caller-supplied context. -/
theorem writer_hidden_from_tool_context :
    ∀ (ctx : List (String × JsonValue)) (w : JsonValue),
      toolExecBoundary (wrapContext ctx w) =
        (removeField ctx writerField, some w) ∧
      ((∀ kv ∈ ctx, ¬ kv.1 = writerField) →
        toolExecBoundary (wrapContext ctx w) = (ctx, some w)) := by
  intro ctx w
  have h1 : toolExecBoundary (wrapContext ctx w) =
      (removeField ctx writerField, some w) := by
    unfold toolExecBoundary
    rw [removeField_wrapContext, lookupField_wrapContext]
  refine ⟨h1, fun h => ?_⟩
  rw [h1, removeField_eq_self ctx writerField h]

/-- C6, witness: a one-field caller context passes through unchanged and
the writer value comes out as the separate parameter. -/
theorem writer_hidden_from_tool_context_witness :
    toolExecBoundary (wrapContext [("userKey", .num 7)]
        (.str "writerToken")) =
      ([("userKey", .num 7)], some (.str "writerToken")) :=
  (writer_hidden_from_tool_context [("userKey", .num 7)]
    (.str "writerToken")).2 (by simp [writerField])

/-- C8, counterexample: the claim says a Leaf Agent node lists the agent
current tool names; but Agent.getAgentTree spreads only the info fields,
so a leaf agent described directly produces a node with NO tools list at
all, even though the agent owns a tool. -/
theorem leaf_tree_tools_counterexample :
    AgentInfoNode.toolsOf (getAgentTree (.leaf "L" "caps" none ["toolOne"])) =
      none ∧
    ¬ (AgentInfoNode.toolsOf
        (getAgentTree (.leaf "L" "caps" none ["toolOne"])) =
       some ["toolOne"]) := by
  constructor
  · rw [getAgentTree]
    rfl
  · rw [getAgentTree]
    intro h
    simp [AgentInfoNode.toolsOf] at h

/-- C8, amended: each describe call rebuilds the tree from the live agent
data: a router node recursively maps the current values of its sub-agent
map, leaf CHILDREN inside a router tree carry their current tool names,
but a leaf agent described directly yields a plain agent node without a
tools list. -/
theorem agent_tree_structure :
    (∀ (nA cA nB cB nC cC nD cD : String) (mA mB mC mD : Option String)
        (tC tD : List String),
      nB ≠ nD →
      getAgentTree (.router nA cA mA
          [.router nB cB mB [.leaf nC cC mC tC], .leaf nD cD mD tD]) =
        .node "router" nA cA mA none
          (some [.node "router" nB cB mB none
                  (some [.node "agent" nC cC mC (some tC) none]),
                 .node "agent" nD cD mD (some tD) none])) ∧
    (∀ (n c : String) (m : Option String) (tools : List String),
      getAgentTree (.leaf n c m tools) = .node "agent" n c m none none) := by
  constructor
  · intro nA cA nB cB nC cC nD cD mA mB mC mD tC tD hBD
    have hbe : (nB == nD) = false := by
      rw [beq_eq_false_iff_ne]
      exact hBD
    rw [getAgentTree_router]
    have hmap : buildSubAgentsMap AgentT.name
        [.router nB cB mB [.leaf nC cC mC tC], .leaf nD cD mD tD] =
        [(nB, .router nB cB mB [.leaf nC cC mC tC]),
         (nD, .leaf nD cD mD tD)] := by
      simp [buildSubAgentsMap, mapSet, AgentT.name, hbe]
    rw [hmap]
    simp only [mapValues, List.map_cons, List.map_nil]
    rw [show routerChildNode (.router nB cB mB [.leaf nC cC mC tC]) =
        getAgentTree (.router nB cB mB [.leaf nC cC mC tC]) from rfl]
    rw [getAgentTree_router]
    have hmapB : buildSubAgentsMap AgentT.name [.leaf nC cC mC tC] =
        [(nC, .leaf nC cC mC tC)] := by
      simp [buildSubAgentsMap, mapSet, AgentT.name]
    rw [hmapB]
    simp [mapValues, routerChildNode]
  · intro n c m tools
    rw [getAgentTree]

/-- C8, witness: the recursive tree of a concrete two-level router. -/
theorem agent_tree_structure_witness :
    getAgentTree (.router "A" "cA" none
        [.router "B" "cB" none [.leaf "C" "cC" none ["toolC"]],
         .leaf "D" "cD" none ["toolD"]]) =
      AgentInfoNode.node "router" "A" "cA" none none
        (some [AgentInfoNode.node "router" "B" "cB" none none
                (some [AgentInfoNode.node "agent" "C" "cC" none
                  (some ["toolC"]) none]),
               AgentInfoNode.node "agent" "D" "cD" none
                 (some ["toolD"]) none]) :=
  agent_tree_structure.1 "A" "cA" "B" "cB" "C" "cC" "D" "cD"
    none none none none ["toolC"] ["toolD"] (by simp)

/-- C10: constructing a router from a sub-agent list in which two agents
share a name succeeds (the constructor model is total) and the later agent
silently replaces the earlier one: the map holds a single binding with the
later agent, the selectAgent enum lists the shared name once, every value
of the map is the later agent, and in general lookup returns the LAST
agent in the list with the requested name. -/
theorem router_duplicate_name_last_wins :
    ∀ (a1 a2 : AgentT) (n : String),
      AgentT.name a1 = n → AgentT.name a2 = n →
      buildSubAgentsMap AgentT.name [a1, a2] = [(n, a2)] ∧
      mapGet (buildSubAgentsMap AgentT.name [a1, a2]) n = some a2 ∧
      mapKeys (buildSubAgentsMap AgentT.name [a1, a2]) = [n] ∧
      (∀ x ∈ mapValues (buildSubAgentsMap AgentT.name [a1, a2]), x = a2) ∧
      (∀ (l : List AgentT) (k : String),
        mapGet (buildSubAgentsMap AgentT.name l) k =
          l.reverse.find? (fun a => AgentT.name a == k)) := by
  intro a1 a2 n h1 h2
  have hmap : buildSubAgentsMap AgentT.name [a1, a2] = [(n, a2)] := by
    simp [buildSubAgentsMap, mapSet, h1, h2]
  refine ⟨hmap, ?_, ?_, ?_, ?_⟩
  · rw [hmap]
    simp [mapGet, List.find?_cons]
  · rw [hmap]
    rfl
  · rw [hmap]
    intro x hx
    simpa [mapValues] using hx
  · intro l k
    exact mapGet_buildSubAgentsMap AgentT.name l k

/-- C10, witness: two leaves sharing the name X; the second one owns the
single binding and the enum entry. -/
theorem router_duplicate_name_last_wins_witness :
    buildSubAgentsMap AgentT.name
        [.leaf "X" "first" none [], .leaf "X" "second" none []] =
      [("X", .leaf "X" "second" none [])] ∧
    mapKeys (buildSubAgentsMap AgentT.name
        [.leaf "X" "first" none [], .leaf "X" "second" none []]) = ["X"] := by
  have h := router_duplicate_name_last_wins
    (.leaf "X" "first" none []) (.leaf "X" "second" none []) "X" rfl rfl
  exact ⟨h.1, h.2.2.1⟩

end Taupo
